import Mathlib

/-
Shallow embedding of the queue / dispatch engine of
`src/shelly/Shellyblu-button.js` (first script copy, lines 1-196).

The mutable module-level state `_q`, `_qHead`, `_busy`, `_tickHandle` is
gathered into a `QState` record; every source function becomes a pure
state transformer.  The configuration constants `MAX_QUEUE_LEN`,
`MAX_RETRIES`, `SERVER_URL` are collected in a `Config` so that claims
quantifying over "every configured maxRetries / capacity" can be stated;
`defaultConfig` holds the source's literal values (3, 0,
"http://172.16.0.5:8181").
-/

namespace VolcanoShelly

/-- A queued job: `_q.push({ url: url, retries: 0 })` (source line 64). -/
structure Job where
  url : String
  retries : Nat
deriving Repr, DecidableEq

/-- Configuration constants of the script (source lines 6, 29, 30). -/
structure Config where
  maxQueueLen : Nat
  maxRetries : Nat
  serverUrl : String
deriving Repr, DecidableEq

/-- The module-level mutable state: `_q`, `_qHead`, `_busy`, `_tickHandle`
(source lines 32-35).  `tickHandle = true` models a non-null timer handle. -/
structure QState where
  q : List Job
  qHead : Nat
  busy : Bool
  tickHandle : Bool
deriving Repr, DecidableEq

/-- `let SERVER_URL = 'http://172.16.0.5:8181'` (source line 6). -/
def SERVER_URL : String := "http://172.16.0.5:8181"

/-- The fixed fallback destination hard-coded at source line 112. -/
def FALLBACK_URL : String := "http://127.0.0.1/relay/0?turn=on"

/-- The source's literal configuration: `MAX_QUEUE_LEN = 3`,
`MAX_RETRIES = 0`, `SERVER_URL` (source lines 6, 29, 30). -/
def defaultConfig : Config :=
  { maxQueueLen := 3, maxRetries := 0, serverUrl := SERVER_URL }

/-- The initial state of the script: empty queue, head 0, not busy,
timer handle null (source lines 32-35). -/
def initState : QState :=
  { q := [], qHead := 0, busy := false, tickHandle := false }

/-- `function _queueLen() { return _q.length - _qHead; }` (source lines 37-39).
JS numbers subtract signed, so the result lives in `Int`. -/
def queueLen (s : QState) : Int :=
  (s.q.length : Int) - (s.qHead : Int)

/-- The logical queue view: the elements of the backing array from the head
offset to the end, in order.  This is the observable queue content. -/
def view (s : QState) : List Job := s.q.drop s.qHead

/-- The backing-array invariant: the head offset never passes the end. -/
def Inv (s : QState) : Prop := s.qHead ≤ s.q.length

instance (s : QState) : Decidable (Inv s) := by
  unfold Inv; infer_instance

/-- `function _compactQueueIfNeeded()` (source lines 42-51): when
`_qHead > 20 && _qHead * 2 > _q.length`, rebuild the backing array from the
unconsumed suffix (`for (let i = _qHead; i < _q.length; i++) nq.push(_q[i])`,
i.e. `drop`) and reset the head to 0. -/
def compactQueueIfNeeded (s : QState) : QState :=
  if 20 < s.qHead ∧ s.q.length < s.qHead * 2 then
    { s with q := s.q.drop s.qHead, qHead := 0 }
  else s

/-- `function _dropOldestIfFull()` (source lines 54-58): if the logical
length has reached `MAX_QUEUE_LEN`, skip the oldest entry (`_qHead++`)
and compact. -/
def dropOldestIfFull (c : Config) (s : QState) : QState :=
  if queueLen s < (c.maxQueueLen : Int) then s
  else compactQueueIfNeeded { s with qHead := s.qHead + 1 }

/-- `function _enqueue(url)` (source lines 60-69): no-op on an empty URL;
otherwise drop the oldest if full, push a fresh `{ url: url, retries: 0 }`,
and arm the recurring timer if the handle is null. -/
def enqueue (c : Config) (s : QState) (url : String) : QState :=
  if url = "" then s
  else
    let s1 := dropOldestIfFull c s
    let s2 := { s1 with q := s1.q ++ [{ url := url, retries := 0 }] }
    if s2.tickHandle then s2 else { s2 with tickHandle := true }

/-- `function _dequeue()` (source lines 71-77): return null when no job is
pending, otherwise read `_q[_qHead]`, advance the head, and compact. -/
def dequeue (s : QState) : Option Job × QState :=
  if queueLen s ≤ 0 then (none, s)
  else
    match s.q.get? s.qHead with
    | none => (none, s)
    | some job => (some job, compactQueueIfNeeded { s with qHead := s.qHead + 1 })

/-- The synchronous part of `function _processOne()` (source lines 79-90):
return immediately when busy; otherwise pop one job, and when one exists set
`busy = true` and issue the HTTP call for it (the returned `Option Job` is
the job handed to `Shelly.call`; its completion callback is `handleResult`). -/
def processOne (s : QState) : QState × Option Job :=
  if s.busy then (s, none)
  else
    match dequeue s with
    | (none, s1) => (s1, none)
    | (some job, s1) => ({ s1 with busy := true }, some job)

/-- Boolean prefix test on character lists (auxiliary for `strContains`). -/
def listPrefixOf : List Char → List Char → Bool
  | [], _ => true
  | _ :: _, [] => false
  | a :: as, b :: bs => a == b && listPrefixOf as bs

/-- JS `hay.indexOf(pat) >= 0`: `pat` occurs as a contiguous substring of
`hay` (source line 111 uses `job.url.indexOf(SERVER_URL) >= 0`). -/
def strContains (hay pat : String) : Bool :=
  (List.range (hay.data.length + 1)).any
    (fun i => listPrefixOf pat.data (hay.data.drop i))

/-- An HTTP response as seen by the completion callback: `res.code` and
`res.body` (the callback reads nothing else).  A null `res` is `Option.none`
at the use site. -/
structure HttpRes where
  code : Int
  body : String
deriving Repr, DecidableEq

/-- Outcome of evaluating `JSON.parse(res.body).action` / `.ison` on a
success body (source lines 95-102).  `throws` models the host `JSON.parse`
(or the member access on its non-object result) raising, which aborts the
callback; the other constructors give the printed branch taken. -/
inductive BodyParse where
  | throws
  | action (a : String)
  | ison (b : Bool)
deriving Repr, DecidableEq

/-- `let ok = (err === 0 && res && res.code >= 200 && res.code < 300)`
(source line 93). -/
def isOk (res : Option HttpRes) (err : Int) : Bool :=
  match res with
  | none => false
  | some r => err == 0 && decide (200 ≤ r.code) && decide (r.code < 300)

/-- Observable side effects of the completion callback. -/
inductive Action where
  | printAction (a : String)
  | printPlug (b : Bool)
  | fallbackCall (url : String)
  | httpFailed (url : String) (err : Int) (code : Option Int)
deriving Repr, DecidableEq

/-- Result of running the completion callback: the new global state, the
emitted side effects, and whether the callback aborted on an exception
before reaching `_busy = false`. -/
structure HandlerResult where
  state : QState
  actions : List Action
  crashed : Bool
deriving Repr, DecidableEq

/-- The completion callback of `Shelly.call` inside `_processOne`
(source lines 91-124), for the job that was in flight.  `parse` is the
oracle describing what `JSON.parse(res.body).action` / `.ison` evaluates to
on this body.  On `ok` with a parsable body it prints and falls through to
`_busy = false`; if the parse throws, the exception propagates out of the
callback and `_busy = false` is never executed (`crashed = true`).  On
failure: if `job.retries < MAX_RETRIES` it increments the local job's
counter and re-enqueues `job.url` (a fresh `{url, retries: 0}` object);
otherwise, if `job.url.indexOf(SERVER_URL) >= 0` it calls
`getURL('http://127.0.0.1/relay/0?turn=on')` — which is `_enqueue` — else
it prints the `HTTP failed` record `{url, err, code: res ? res.code : null}`. -/
def handleResult (c : Config) (parse : String → BodyParse) (job : Job)
    (res : Option HttpRes) (err : Int) (s : QState) : HandlerResult :=
  if isOk res err then
    match parse ((res.getD { code := 0, body := "" }).body) with
    | BodyParse.throws => { state := s, actions := [], crashed := true }
    | BodyParse.action a =>
        { state := { s with busy := false }
          actions := [Action.printAction a], crashed := false }
    | BodyParse.ison b =>
        { state := { s with busy := false }
          actions := [Action.printPlug b], crashed := false }
  else
    if job.retries < c.maxRetries then
      { state := { enqueue c s job.url with busy := false }
        actions := [], crashed := false }
    else
      if strContains job.url c.serverUrl then
        { state := { enqueue c s FALLBACK_URL with busy := false }
          actions := [Action.fallbackCall FALLBACK_URL], crashed := false }
      else
        { state := { s with busy := false }
          actions := [Action.httpFailed job.url err (res.map (fun r => r.code))]
          crashed := false }

/-- Fold a list of `_enqueue` calls over a state, left to right. -/
def enqueueAll (c : Config) (s : QState) (urls : List String) : QState :=
  urls.foldl (enqueue c) s

/-- Drain up to `n` jobs off the queue by repeated `_dequeue`, collecting
the popped jobs in order. -/
def drainList (s : QState) : Nat → List Job
  | 0 => []
  | n + 1 =>
    match dequeue s with
    | (none, _) => []
    | (some j, s1) => j :: drainList s1 n

theorem view_compactQueueIfNeeded (s : QState) :
    view (compactQueueIfNeeded s) = view s := by
  unfold compactQueueIfNeeded view
  split <;> simp

theorem busy_compactQueueIfNeeded (s : QState) :
    (compactQueueIfNeeded s).busy = s.busy := by
  unfold compactQueueIfNeeded
  split <;> rfl

theorem tick_compactQueueIfNeeded (s : QState) :
    (compactQueueIfNeeded s).tickHandle = s.tickHandle := by
  unfold compactQueueIfNeeded
  split <;> rfl

theorem Inv_compactQueueIfNeeded (s : QState) (h : Inv s) :
    Inv (compactQueueIfNeeded s) := by
  unfold compactQueueIfNeeded Inv at *
  split
  · simp
  · exact h

theorem queueLen_eq_view (s : QState) (h : Inv s) :
    queueLen s = ((view s).length : Int) := by
  unfold queueLen view Inv at *
  rw [List.length_drop]
  omega

theorem busy_dropOldestIfFull (c : Config) (s : QState) :
    (dropOldestIfFull c s).busy = s.busy := by
  unfold dropOldestIfFull
  split
  · rfl
  · rw [busy_compactQueueIfNeeded]

theorem tick_dropOldestIfFull (c : Config) (s : QState) :
    (dropOldestIfFull c s).tickHandle = s.tickHandle := by
  unfold dropOldestIfFull
  split
  · rfl
  · rw [tick_compactQueueIfNeeded]

theorem Inv_dropOldestIfFull (c : Config) (hc : 1 ≤ c.maxQueueLen) (s : QState)
    (h : Inv s) : Inv (dropOldestIfFull c s) := by
  unfold dropOldestIfFull
  split
  · exact h
  · next hfull =>
    apply Inv_compactQueueIfNeeded
    unfold Inv queueLen at *
    simp only [not_lt] at hfull
    simp only
    omega

theorem dropOldestIfFull_not_full (c : Config) (s : QState) (h : Inv s)
    (hlt : (view s).length < c.maxQueueLen) :
    dropOldestIfFull c s = s := by
  unfold dropOldestIfFull
  rw [queueLen_eq_view s h]
  rw [if_pos (by exact_mod_cast hlt)]

theorem view_dropOldestIfFull_full (c : Config) (s : QState) (h : Inv s)
    (hge : c.maxQueueLen ≤ (view s).length) :
    view (dropOldestIfFull c s) = (view s).tail := by
  unfold dropOldestIfFull
  rw [queueLen_eq_view s h]
  rw [if_neg (by omega)]
  rw [view_compactQueueIfNeeded]
  show s.q.drop (s.qHead + 1) = (s.q.drop s.qHead).tail
  rw [List.tail_drop]

theorem view_enqueue_push (c : Config) (s : QState) (u : String) (hu : ¬ u = "")
    (h1 : Inv (dropOldestIfFull c s)) :
    view (enqueue c s u)
      = view (dropOldestIfFull c s) ++ [{ url := u, retries := 0 }] := by
  unfold enqueue
  rw [if_neg hu]
  dsimp only
  split <;>
  · show ((dropOldestIfFull c s).q ++ [({ url := u, retries := 0 } : Job)]).drop
        (dropOldestIfFull c s).qHead = _
    rw [List.drop_append_of_le_length h1]
    rfl

theorem Inv_enqueue (c : Config) (hc : 1 ≤ c.maxQueueLen) (s : QState) (u : String)
    (h : Inv s) : Inv (enqueue c s u) := by
  unfold enqueue
  split
  · exact h
  · have h1 : Inv (dropOldestIfFull c s) := Inv_dropOldestIfFull c hc s h
    unfold Inv at *
    dsimp only
    split <;>
    · simp only [List.length_append, List.length_cons, List.length_nil]
      omega

theorem busy_enqueue (c : Config) (s : QState) (u : String) :
    (enqueue c s u).busy = s.busy := by
  unfold enqueue
  split
  · rfl
  · dsimp only
    split <;>
    · show (dropOldestIfFull c s).busy = s.busy
      exact busy_dropOldestIfFull c s

theorem enqueue_preserves_bound (c : Config) (hc : 1 ≤ c.maxQueueLen) (s : QState)
    (u : String) (h : Inv s) (hle : (view s).length ≤ c.maxQueueLen) :
    Inv (enqueue c s u) ∧ (view (enqueue c s u)).length ≤ c.maxQueueLen := by
  refine ⟨Inv_enqueue c hc s u h, ?_⟩
  by_cases hu : u = ""
  · unfold enqueue
    rw [if_pos hu]
    exact hle
  · rw [view_enqueue_push c s u hu (Inv_dropOldestIfFull c hc s h)]
    by_cases hfull : (view s).length < c.maxQueueLen
    · rw [dropOldestIfFull_not_full c s h hfull]
      simp only [List.length_append, List.length_cons, List.length_nil]
      omega
    · rw [view_dropOldestIfFull_full c s h (by omega)]
      simp only [List.length_append, List.length_tail, List.length_cons,
        List.length_nil]
      omega

theorem enqueueAll_bound (c : Config) (hc : 1 ≤ c.maxQueueLen) (urls : List String) :
    ∀ s : QState, Inv s → (view s).length ≤ c.maxQueueLen →
      Inv (enqueueAll c s urls) ∧
      (view (enqueueAll c s urls)).length ≤ c.maxQueueLen := by
  induction urls with
  | nil => exact fun s h hle => ⟨h, hle⟩
  | cons u us ih =>
    intro s h hle
    have h2 := enqueue_preserves_bound c hc s u h hle
    exact ih (enqueue c s u) h2.1 h2.2

theorem dequeue_view_nil (s : QState) (h : Inv s) (hv : view s = []) :
    dequeue s = (none, s) := by
  unfold dequeue
  rw [if_pos]
  rw [queueLen_eq_view s h, hv]
  simp

theorem dequeue_view_cons (s : QState) (h : Inv s) (j : Job) (rest : List Job)
    (hv : view s = j :: rest) :
    (dequeue s).1 = some j ∧ view (dequeue s).2 = rest ∧ Inv (dequeue s).2 := by
  have hpos : ¬ queueLen s ≤ 0 := by
    rw [queueLen_eq_view s h, hv]
    simp
  have hget : s.q.get? s.qHead = some j := by
    rw [List.get?_eq_getElem?, ← List.head?_drop]
    show (view s).head? = some j
    rw [hv]
    rfl
  have hinv2 : Inv (compactQueueIfNeeded { s with qHead := s.qHead + 1 }) := by
    apply Inv_compactQueueIfNeeded
    have : s.qHead < s.q.length := by
      unfold queueLen at hpos
      omega
    unfold Inv
    simp only
    omega
  have hview2 : view (compactQueueIfNeeded { s with qHead := s.qHead + 1 }) = rest := by
    rw [view_compactQueueIfNeeded]
    show s.q.drop (s.qHead + 1) = rest
    rw [← List.tail_drop]
    show (view s).tail = rest
    rw [hv]
    rfl
  unfold dequeue
  rw [if_neg hpos, hget]
  exact ⟨rfl, hview2, hinv2⟩

theorem drainList_view (l : List Job) :
    ∀ s : QState, Inv s → view s = l → drainList s l.length = l := by
  induction l with
  | nil => intro s h hv; rfl
  | cons j rest ih =>
    intro s h hv
    obtain ⟨h1, h2, h3⟩ := dequeue_view_cons s h j rest hv
    have hpair : dequeue s = (some j, (dequeue s).2) := by
      rw [← h1]
    show drainList s (rest.length + 1) = j :: rest
    unfold drainList
    rw [hpair]
    exact congrArg (j :: ·) (ih (dequeue s).2 h3 h2)

theorem view_enqueueAll_no_evict (c : Config) (urls : List String) :
    ∀ s : QState, Inv s → (∀ u ∈ urls, ¬ u = "") →
      (view s).length + urls.length ≤ c.maxQueueLen →
      view (enqueueAll c s urls)
        = view s ++ urls.map (fun u => { url := u, retries := 0 }) := by
  induction urls with
  | nil => intro s h _ _; simp [enqueueAll]
  | cons u us ih =>
    intro s h hu hlen
    have hc : 1 ≤ c.maxQueueLen := by
      simp only [List.length_cons] at hlen
      omega
    have hnotfull : (view s).length < c.maxQueueLen := by
      simp only [List.length_cons] at hlen
      omega
    have hu1 : ¬ u = "" := hu u (by simp)
    have hview1 : view (enqueue c s u) = view s ++ [{ url := u, retries := 0 }] := by
      rw [view_enqueue_push c s u hu1 (Inv_dropOldestIfFull c hc s h),
        dropOldestIfFull_not_full c s h hnotfull]
    show view (enqueueAll c (enqueue c s u) us) = _
    rw [ih (enqueue c s u) (Inv_enqueue c hc s u h) (fun v hv => hu v (by simp [hv]))
      (by rw [hview1]; simp only [List.length_append, List.length_cons,
        List.length_nil, List.length_cons] at *; omega)]
    rw [hview1]
    simp

/-- Claim C3: for every sequence of enqueue calls the logical queue length
(backing length minus head offset) never exceeds the configured maximum
capacity after an enqueue completes; when at capacity, exactly one job —
the oldest pending one — is evicted before the new job is pushed; with
capacity 3, enqueuing A, B, C, D in order leaves exactly [B, C, D]. -/
theorem queue_capacity_bound (c : Config) (hc : 1 ≤ c.maxQueueLen)
    (urls : List String) :
    (view (enqueueAll c initState urls)).length ≤ c.maxQueueLen ∧
    (∀ s : QState, Inv s → ∀ u : String, ¬ u = "" →
      (view s).length = c.maxQueueLen →
      view (enqueue c s u) = (view s).tail ++ [{ url := u, retries := 0 }]) ∧
    view (enqueueAll defaultConfig initState ["A", "B", "C", "D"])
      = [{ url := "B", retries := 0 }, { url := "C", retries := 0 },
         { url := "D", retries := 0 }] := by
  refine ⟨(enqueueAll_bound c hc urls initState (by decide) (Nat.zero_le _)).2,
    ?_, by decide⟩
  intro s h u hu hcap
  rw [view_enqueue_push c s u hu (Inv_dropOldestIfFull c hc s h),
    view_dropOldestIfFull_full c s h (by omega)]

/-- Witness for C3 at the source configuration (capacity 3). -/
theorem queue_capacity_bound_witness :
    (view (enqueueAll defaultConfig initState ["A", "B", "C", "D", "E"])).length
      ≤ defaultConfig.maxQueueLen ∧
    view (enqueue defaultConfig
        { q := [{ url := "A", retries := 0 }, { url := "B", retries := 0 },
                { url := "C", retries := 0 }],
          qHead := 0, busy := false, tickHandle := true } "D")
      = [{ url := "B", retries := 0 }, { url := "C", retries := 0 },
         { url := "D", retries := 0 }] ∧
    view (enqueueAll defaultConfig initState ["A", "B", "C", "D"])
      = [{ url := "B", retries := 0 }, { url := "C", retries := 0 },
         { url := "D", retries := 0 }] := by
  have h := queue_capacity_bound defaultConfig (by decide) ["A", "B", "C", "D", "E"]
  refine ⟨h.1, ?_, h.2.2⟩
  rw [h.2.1 { q := [{ url := "A", retries := 0 }, { url := "B", retries := 0 },
                    { url := "C", retries := 0 }],
              qHead := 0, busy := false, tickHandle := true }
      (by decide) "D" (by decide) (by decide)]
  rfl

/-- Claim C6: a drain step (`_processOne`) invoked while `busy = true`
returns immediately with no state change: queue contents, head offset, busy
flag and timer handle are identical, and no job is popped. -/
theorem busy_tick_no_state_change (s : QState) (h : s.busy = true) :
    processOne s = (s, none) := by
  unfold processOne
  rw [if_pos h]

/-- Witness for C6: a busy state with one pending job is untouched. -/
theorem busy_tick_no_state_change_witness :
    processOne
        { q := [{ url := "http://a", retries := 0 }],
          qHead := 0, busy := true, tickHandle := true }
      = ({ q := [{ url := "http://a", retries := 0 }],
           qHead := 0, busy := true, tickHandle := true }, none) :=
  busy_tick_no_state_change
    { q := [{ url := "http://a", retries := 0 }],
      qHead := 0, busy := true, tickHandle := true } rfl

/-- Claim C7: compaction (`_compactQueueIfNeeded`) leaves the logical queue
view — the elements from the head offset to the end, in order — unchanged
for every backing sequence and head offset, and it touches the backing
representation only when the head offset exceeds 20 and twice the head
offset exceeds the backing length; otherwise the state is returned as is. -/
theorem compaction_pure_optimization (s : QState) :
    view (compactQueueIfNeeded s) = view s ∧
    (¬ (20 < s.qHead ∧ s.q.length < s.qHead * 2) →
      compactQueueIfNeeded s = s) := by
  refine ⟨view_compactQueueIfNeeded s, fun h => ?_⟩
  unfold compactQueueIfNeeded
  rw [if_neg h]

/-- Witness for C7 at a concrete state. -/
theorem compaction_pure_optimization_witness :
    view (compactQueueIfNeeded initState) = view initState ∧
    compactQueueIfNeeded initState = initState := by
  have h := compaction_pure_optimization initState
  exact ⟨h.1, h.2 (by decide)⟩

/-- Claim C8: absent retries, dispatch is FIFO: for every sequence of
non-empty URLs that causes no eviction (it fits under capacity), draining
the queue returns the jobs in exact arrival order, and every dequeue on a
non-empty queue returns the oldest pending job (the head of the view). -/
theorem fifo_dispatch_order (c : Config) (urls : List String)
    (hu : ∀ u ∈ urls, ¬ u = "") (hlen : urls.length ≤ c.maxQueueLen) :
    drainList (enqueueAll c initState urls) urls.length
      = urls.map (fun u => { url := u, retries := 0 }) ∧
    ∀ s : QState, Inv s → ∀ j : Job, ∀ rest : List Job,
      view s = j :: rest → (dequeue s).1 = some j := by
  refine ⟨?_, fun s h j rest hv => (dequeue_view_cons s h j rest hv).1⟩
  match urls with
  | [] => rfl
  | u :: us =>
    have hc : 1 ≤ c.maxQueueLen := by
      simp only [List.length_cons] at hlen
      omega
    have hinv : Inv (enqueueAll c initState (u :: us)) :=
      (enqueueAll_bound c hc (u :: us) initState (by decide) (Nat.zero_le _)).1
    have hview := view_enqueueAll_no_evict c (u :: us) initState (by decide) hu
      (by
        have h0 : (view initState).length = 0 := rfl
        rw [h0]
        simpa using hlen)
    have hfin := drainList_view ((u :: us).map fun v => { url := v, retries := 0 })
      (enqueueAll c initState (u :: us)) hinv (hview.trans rfl)
    rw [List.length_map] at hfin
    exact hfin

/-- Witness for C8 at the source configuration. -/
theorem fifo_dispatch_order_witness :
    drainList (enqueueAll defaultConfig initState ["http://a", "http://b"]) 2
      = [{ url := "http://a", retries := 0 }, { url := "http://b", retries := 0 }] ∧
    (dequeue { q := [{ url := "http://a", retries := 0 }],
               qHead := 0, busy := false, tickHandle := true }).1
      = some { url := "http://a", retries := 0 } := by
  have h := fifo_dispatch_order defaultConfig ["http://a", "http://b"]
    (by decide) (by decide)
  exact ⟨h.1.trans rfl,
    h.2 { q := [{ url := "http://a", retries := 0 }],
          qHead := 0, busy := false, tickHandle := true } (by decide)
      { url := "http://a", retries := 0 } [] rfl⟩

/-- Claim C4: on terminal failure (outcome not ok, retries exhausted): when
the job's URL passes the primary-server test — the code's rendering of
"belongs to the primary server's origin" is `job.url.indexOf(SERVER_URL)
>= 0`, i.e. `strContains` — exactly one fallback action to the fixed
backup destination is triggered and no diagnostic is emitted; otherwise no
fallback occurs and exactly one diagnostic failure record with the job's
URL, the error indicator, and the status code (null when no response was
received) is emitted, the state merely clearing `busy`. -/
theorem terminal_failure_fallback_or_diag (c : Config)
    (parse : String → BodyParse) (job : Job) (res : Option HttpRes)
    (err : Int) (s : QState) (hfail : isOk res err = false)
    (hnoretry : ¬ job.retries < c.maxRetries) :
    (strContains job.url c.serverUrl = true →
      (handleResult c parse job res err s).actions
        = [Action.fallbackCall FALLBACK_URL]) ∧
    (strContains job.url c.serverUrl = false →
      (handleResult c parse job res err s).actions
        = [Action.httpFailed job.url err (res.map fun r => r.code)] ∧
      (handleResult c parse job res err s).state = { s with busy := false }) := by
  constructor <;> intro hp <;> simp [handleResult, hfail, hnoretry, hp]

/-- Witness for C4: one failing job to the primary server, one to another
destination, both with the source configuration (maxRetries 0). -/
theorem terminal_failure_fallback_or_diag_witness :
    (handleResult defaultConfig (fun _ => BodyParse.ison true)
        { url := "http://172.16.0.5:8181/on", retries := 0 } none 1
        initState).actions
      = [Action.fallbackCall FALLBACK_URL] ∧
    (handleResult defaultConfig (fun _ => BodyParse.ison true)
        { url := "http://172.16.0.52/relay/0?turn=toggle", retries := 0 }
        (some { code := 500, body := "" }) 0 initState).actions
      = [Action.httpFailed "http://172.16.0.52/relay/0?turn=toggle" 0 (some 500)] := by
  have h1 := terminal_failure_fallback_or_diag defaultConfig
    (fun _ => BodyParse.ison true)
    { url := "http://172.16.0.5:8181/on", retries := 0 } none 1 initState
    (by decide) (by decide)
  have h2 := terminal_failure_fallback_or_diag defaultConfig
    (fun _ => BodyParse.ison true)
    { url := "http://172.16.0.52/relay/0?turn=toggle", retries := 0 }
    (some { code := 500, body := "" }) 0 initState (by decide) (by decide)
  exact ⟨h1.1 (by decide), ((h2.2 (by decide)).1).trans rfl⟩

/-- Claim C5 counterexample: the claim says the fallback call "is not fed
back into the dispatch queue", but the code's fallback is
`getURL('http://127.0.0.1/relay/0?turn=on')` and `getURL` is `_enqueue`: at
this concrete terminally failing primary-server job, the fallback URL
appears in the dispatch queue afterwards. -/
theorem fallback_is_enqueued_counterexample :
    (handleResult defaultConfig (fun _ => BodyParse.ison true)
        { url := "http://172.16.0.5:8181/on", retries := 0 } none 1
        { q := [], qHead := 0, busy := true, tickHandle := true }).state.q
      = [{ url := FALLBACK_URL, retries := 0 }] := by decide

/-- Claim C5 as amended: the compensating fallback is fire-and-forget in
the sense that the failing job's handler does nothing beyond handing the
fixed fallback URL to `_enqueue`: the resulting state is exactly the state
after enqueuing the fallback URL as an ordinary fresh job (retries 0,
subject to normal admission control) with `busy` cleared, and the only
emitted action is the single fallback call — no tracking or retry state
for the fallback is recorded anywhere. -/
theorem fallback_fire_and_forget (c : Config) (parse : String → BodyParse)
    (job : Job) (res : Option HttpRes) (err : Int) (s : QState)
    (hfail : isOk res err = false) (hnoretry : ¬ job.retries < c.maxRetries)
    (hp : strContains job.url c.serverUrl = true) :
    (handleResult c parse job res err s).state
      = { enqueue c s FALLBACK_URL with busy := false } ∧
    (handleResult c parse job res err s).actions
      = [Action.fallbackCall FALLBACK_URL] := by
  constructor <;> simp [handleResult, hfail, hnoretry, hp]

/-- Witness for the amended C5 at a concrete failing primary-server job. -/
theorem fallback_fire_and_forget_witness :
    (handleResult defaultConfig (fun _ => BodyParse.ison true)
        { url := "http://172.16.0.5:8181/on", retries := 0 } none 1
        initState).state
      = { enqueue defaultConfig initState FALLBACK_URL with busy := false } ∧
    (handleResult defaultConfig (fun _ => BodyParse.ison true)
        { url := "http://172.16.0.5:8181/on", retries := 0 } none 1
        initState).actions
      = [Action.fallbackCall FALLBACK_URL] :=
  fallback_fire_and_forget defaultConfig (fun _ => BodyParse.ison true)
    { url := "http://172.16.0.5:8181/on", retries := 0 } none 1 initState
    (by decide) (by decide) (by decide)

/-- Claim C9: `_enqueue` always pushes a fresh `{ url: url, retries: 0 }`
object, so every job entering the queue has retries 0; in particular the
handler's retry branch re-enqueues `job.url` through `_enqueue`, and the
increment performed on the popped job object is discarded: the re-enqueued
job re-enters the queue with retryCount 0, whatever `job.retries` was. -/
theorem reenqueued_job_retries_zero (c : Config) (hc : 1 ≤ c.maxQueueLen)
    (s : QState) (h : Inv s) (u : String) (hu : ¬ u = "") :
    view (enqueue c s u)
      = view (dropOldestIfFull c s) ++ [{ url := u, retries := 0 }] ∧
    ∀ parse : String → BodyParse, ∀ job : Job, ∀ res : Option HttpRes,
      ∀ err : Int, isOk res err = false → job.retries < c.maxRetries →
      ¬ job.url = "" →
      view (handleResult c parse job res err s).state
        = view (dropOldestIfFull c s) ++ [{ url := job.url, retries := 0 }] := by
  have h1 := Inv_dropOldestIfFull c hc s h
  refine ⟨view_enqueue_push c s u hu h1, ?_⟩
  intro parse job res err hfail hretry hju
  have hstate : (handleResult c parse job res err s).state
      = { enqueue c s job.url with busy := false } := by
    simp [handleResult, hfail, hretry]
  rw [hstate]
  show view (enqueue c s job.url) = _
  exact view_enqueue_push c s job.url hju h1

/-- Witness for C9: a popped job with retries 5 is re-enqueued with 0. -/
theorem reenqueued_job_retries_zero_witness :
    view (enqueue { maxQueueLen := 3, maxRetries := 9, serverUrl := SERVER_URL }
        initState "http://a")
      = view (dropOldestIfFull
          { maxQueueLen := 3, maxRetries := 9, serverUrl := SERVER_URL } initState)
        ++ [{ url := "http://a", retries := 0 }] ∧
    view (handleResult { maxQueueLen := 3, maxRetries := 9, serverUrl := SERVER_URL }
        (fun _ => BodyParse.ison true) { url := "http://b", retries := 5 } none 1
        initState).state
      = view (dropOldestIfFull
          { maxQueueLen := 3, maxRetries := 9, serverUrl := SERVER_URL } initState)
        ++ [{ url := "http://b", retries := 0 }] := by
  have h := reenqueued_job_retries_zero
    { maxQueueLen := 3, maxRetries := 9, serverUrl := SERVER_URL } (by decide)
    initState (by decide) "http://a" (by decide)
  exact ⟨h.1, h.2 (fun _ => BodyParse.ison true)
    { url := "http://b", retries := 5 } none 1 (by decide) (by decide) (by decide)⟩

/-- Claim C10: the fixed fallback destination does not contain the primary
SERVER_URL as a substring, so under the source configuration a terminally
failing fallback job itself never passes the primary-server test: the
handler emits only a diagnostic record and enqueues nothing further, so
each originally failing primary-server job causes at most one fallback
enqueue and fallback chains are bounded at length one. -/
theorem fallback_chain_bounded :
    strContains FALLBACK_URL SERVER_URL = false ∧
    ∀ parse : String → BodyParse, ∀ job : Job, ∀ res : Option HttpRes,
      ∀ err : Int, ∀ s : QState, job.url = FALLBACK_URL →
      isOk res err = false →
      (handleResult defaultConfig parse job res err s).state
        = { s with busy := false } ∧
      (handleResult defaultConfig parse job res err s).actions
        = [Action.httpFailed FALLBACK_URL err (res.map fun r => r.code)] := by
  refine ⟨by decide, ?_⟩
  intro parse job res err s hurl hfail
  have hcontain : strContains FALLBACK_URL defaultConfig.serverUrl = false := by
    decide
  have hr : ¬ job.retries < defaultConfig.maxRetries := by
    show ¬ job.retries < 0
    omega
  constructor <;> simp [handleResult, hfail, hr, hcontain, hurl]

/-- Witness for C10: the fallback job failing with a timeout produces only
the diagnostic record. -/
theorem fallback_chain_bounded_witness :
    (handleResult defaultConfig (fun _ => BodyParse.ison true)
        { url := FALLBACK_URL, retries := 0 } none 1 initState).state
      = { initState with busy := false } ∧
    (handleResult defaultConfig (fun _ => BodyParse.ison true)
        { url := FALLBACK_URL, retries := 0 } none 1 initState).actions
      = [Action.httpFailed FALLBACK_URL 1 none] := by
  have h := fallback_chain_bounded.2 (fun _ => BodyParse.ison true)
    { url := FALLBACK_URL, retries := 0 } none 1 initState rfl (by decide)
  exact ⟨h.1, h.2.trans rfl⟩

/-- Claim C1 (defect demonstration): the retry bound fails for
maxRetries = 1, because the retry branch re-enqueues through `_enqueue`,
which builds a fresh `{url, retries: 0}` object, discarding the increment.
Concretely: a job is enqueued once; its call fails (timeout, err 1, no
response), the handler takes the retry branch (no terminal action) and the
queue again holds the job with retries 0; the retried call fails as well,
and the handler again takes the retry branch — a second retry, although
maxRetries = 1 — leaving the job with retries 0 in the queue once more, so
the cycle repeats unboundedly.  (With the shipped maxRetries = 0 the claim
holds: the retry branch is unreachable.) -/
theorem retry_bound_violated :
    (let c : Config := { maxQueueLen := 3, maxRetries := 1, serverUrl := SERVER_URL };
     let pr : String → BodyParse := fun _ => BodyParse.ison true;
     let j : Job := { url := "http://button/1", retries := 0 };
     let s1 := enqueue c initState "http://button/1";
     let p1 := processOne s1;
     let r1 := handleResult c pr j none 1 p1.1;
     let p2 := processOne r1.state;
     let r2 := handleResult c pr j none 1 p2.1;
     p1.2 = some j ∧
     r1.actions = [] ∧
     view r1.state = [j] ∧
     p2.2 = some j ∧
     r2.actions = [] ∧
     view r2.state = [j]) := by decide

/-- Claim C2 (defect demonstration): on a success response (err 0, code
200) whose body fails to parse, `JSON.parse(res.body).action` raises inside
the completion handler, which has no catch: the handler aborts before
`_busy = false`, leaving the dispatcher busy forever.  The `ok`
classification itself is unaffected, but the spec's requirement that the
handler reset `busy` on every exit path and survive a malformed body is
violated. -/
theorem busy_flag_wedged :
    (let r := handleResult defaultConfig (fun _ => BodyParse.throws)
        { url := "http://172.16.0.5:8181/on", retries := 0 }
        (some { code := 200, body := "not json" }) 0
        { q := [], qHead := 0, busy := true, tickHandle := true };
     isOk (some { code := 200, body := "not json" }) 0 = true ∧
     r.crashed = true ∧
     r.state.busy = true ∧
     r.actions = []) := by decide

end VolcanoShelly
